import Mathlib

set_option maxRecDepth 10000

namespace LlmDemo

/-- JSON values as produced by the json.loads call in llm_demo.py.  A number is
represented by an integer: exact for integer literals; for fractional or exponent
forms the representation keeps the signed mantissa digits, which preserves the type
and the zero-ness of the value, and those are the only attributes of a number the
decode loops ever observe (type errors and truthiness). -/
inductive Json where
  | null
  | bool (b : Bool)
  | num (n : Int)
  | str (s : String)
  | arr (elems : List Json)
  | obj (fields : List (String × Json))
deriving Repr, Inhabited

/-- Skip JSON whitespace, as the Python json scanner does between tokens. -/
def skipWs : List Char → List Char
  | [] => []
  | c :: cs =>
    if c == ' ' || c == '\t' || c == '\n' || c == '\r' then skipWs cs else c :: cs

/-- Value of one hexadecimal digit, used for \u escapes. -/
def hexVal (c : Char) : Option Nat :=
  if '0' ≤ c ∧ c ≤ '9' then some (c.toNat - '0'.toNat)
  else if 'a' ≤ c ∧ c ≤ 'f' then some (c.toNat - 'a'.toNat + 10)
  else if 'A' ≤ c ∧ c ≤ 'F' then some (c.toNat - 'A'.toNat + 10)
  else none

/-- Turn a code point into a Char.  A value that is not a valid scalar (a lone
surrogate, which Python would keep in the str object) is mapped to the
replacement character; no claim exercises that corner. -/
def codeChar (n : Nat) : Char :=
  if n.isValidChar then Char.ofNat n else '�'

/-- Prepend a character to the pending parse result of a string body. -/
def strCons (c : Char) : Option (List Char × List Char) → Option (List Char × List Char)
  | some (s, rest) => some (c :: s, rest)
  | none => none

/-- Parse the body of a JSON string after the opening quote, following the strict
Python json scanner: standard escapes, \uXXXX with surrogate pairs, and raw
control characters rejected.  Fuel-bounded; every step consumes at least one
character, so fuel equal to the input length always suffices. -/
def parseStringGo (fuel : Nat) (cs : List Char) : Option (List Char × List Char) :=
  match fuel with
  | 0 => none
  | fuel + 1 =>
    match cs with
    | [] => none
    | c :: rest =>
      if c == '"' then some ([], rest)
      else if c == '\\' then
        match rest with
        | [] => none
        | e :: rest2 =>
          if e == '"' then strCons '"' (parseStringGo fuel rest2)
          else if e == '\\' then strCons '\\' (parseStringGo fuel rest2)
          else if e == '/' then strCons '/' (parseStringGo fuel rest2)
          else if e == 'b' then strCons '\x08' (parseStringGo fuel rest2)
          else if e == 'f' then strCons '\x0c' (parseStringGo fuel rest2)
          else if e == 'n' then strCons '\n' (parseStringGo fuel rest2)
          else if e == 'r' then strCons '\r' (parseStringGo fuel rest2)
          else if e == 't' then strCons '\t' (parseStringGo fuel rest2)
          else if e == 'u' then
            match rest2 with
            | h1 :: h2 :: h3 :: h4 :: rest3 =>
              match hexVal h1, hexVal h2, hexVal h3, hexVal h4 with
              | some a, some b, some c1, some d =>
                let n := ((a * 16 + b) * 16 + c1) * 16 + d
                if 0xd800 ≤ n ∧ n ≤ 0xdbff then
                  match rest3 with
                  | '\\' :: 'u' :: g1 :: g2 :: g3 :: g4 :: rest4 =>
                    match hexVal g1, hexVal g2, hexVal g3, hexVal g4 with
                    | some w, some x, some y, some z =>
                      let m := ((w * 16 + x) * 16 + y) * 16 + z
                      if 0xdc00 ≤ m ∧ m ≤ 0xdfff then
                        strCons (codeChar (0x10000 + (n - 0xd800) * 0x400 + (m - 0xdc00)))
                          (parseStringGo fuel rest4)
                      else strCons (codeChar n) (parseStringGo fuel rest3)
                    | _, _, _, _ => strCons (codeChar n) (parseStringGo fuel rest3)
                  | _ => strCons (codeChar n) (parseStringGo fuel rest3)
                else strCons (codeChar n) (parseStringGo fuel rest3)
              | _, _, _, _ => none
            | _ => none
          else none
      else if c.toNat < 0x20 then none
      else strCons c (parseStringGo fuel rest)

/-- Parse a JSON string body; the length of the input is always enough fuel. -/
def parseStringBody (cs : List Char) : Option (List Char × List Char) :=
  parseStringGo cs.length cs

/-- Split leading decimal digits from the rest. -/
def takeDigits : List Char → List Char × List Char
  | [] => ([], [])
  | c :: cs =>
    if c.isDigit then
      let (ds, rest) := takeDigits cs
      (c :: ds, rest)
    else ([], c :: cs)

/-- Decimal value of a digit list. -/
def digitsToNat (ds : List Char) : Nat :=
  ds.foldl (fun a c => a * 10 + (c.toNat - '0'.toNat)) 0

/-- Parse a JSON number per the Python json NUMBER_RE: an optional minus, an
integer part without leading zeros, then an optional fraction and an optional
exponent, each consumed only when complete (an incomplete one is left for the
caller, which then rejects the leftover, exactly as Python does).  The returned
integer is the signed mantissa (integer digits followed by fraction digits). -/
def parseNumber (cs : List Char) : Option (Int × List Char) :=
  let (neg, cs1) :=
    match cs with
    | '-' :: rest => (true, rest)
    | _ => (false, cs)
  match cs1 with
  | [] => none
  | c :: _ =>
    if c.isDigit then
      let (intDs, rest1) :=
        match cs1 with
        | '0' :: rest => (['0'], rest)
        | _ => takeDigits cs1
      let (fracDs, rest2) :=
        match rest1 with
        | '.' :: r =>
          match takeDigits r with
          | ([], _) => ([], rest1)
          | (ds, r2) => (ds, r2)
        | _ => ([], rest1)
      let rest3 :=
        match rest2 with
        | e :: r =>
          if e == 'e' || e == 'E' then
            let r2 :=
              match r with
              | s :: r3 => if s == '+' || s == '-' then r3 else r
              | [] => r
            match takeDigits r2 with
            | ([], _) => rest2
            | (_, r3) => r3
          else rest2
        | [] => rest2
      let mant : Nat := digitsToNat (intDs ++ fracDs)
      some (if neg then -(mant : Int) else (mant : Int), rest3)
    else none

/-- Python dict construction from member pairs: a repeated key keeps its first
position and takes the last value, as in the dicts json.loads builds. -/
def dictInsert (fields : List (String × Json)) (k : String) (v : Json) :
    List (String × Json) :=
  if fields.any (fun p => p.1 == k) then
    fields.map (fun p => if p.1 == k then (k, v) else p)
  else fields ++ [(k, v)]

mutual

/-- Parse one JSON value, fuel-bounded recursive descent over the grammar that
the Python json scanner accepts, including the non-standard NaN and Infinity
constants (mapped to nonzero numbers, all the loops could observe of them). -/
def parseValue (fuel : Nat) (cs : List Char) : Option (Json × List Char) :=
  match fuel with
  | 0 => none
  | fuel + 1 =>
    match skipWs cs with
    | [] => none
    | c :: rest =>
      if c == '\x7b' then parseMembers fuel (skipWs rest) []
      else if c == '[' then parseElems fuel (skipWs rest) []
      else if c == '"' then
        match parseStringBody rest with
        | some (s, rest2) => some (.str (String.mk s), rest2)
        | none => none
      else if c == 't' then
        match rest with
        | 'r' :: 'u' :: 'e' :: rest2 => some (.bool true, rest2)
        | _ => none
      else if c == 'f' then
        match rest with
        | 'a' :: 'l' :: 's' :: 'e' :: rest2 => some (.bool false, rest2)
        | _ => none
      else if c == 'n' then
        match rest with
        | 'u' :: 'l' :: 'l' :: rest2 => some (.null, rest2)
        | _ => none
      else if c == 'N' then
        match rest with
        | 'a' :: 'N' :: rest2 => some (.num 1, rest2)
        | _ => none
      else if c == 'I' then
        match rest with
        | 'n' :: 'f' :: 'i' :: 'n' :: 'i' :: 't' :: 'y' :: rest2 => some (.num 1, rest2)
        | _ => none
      else if c == '-' then
        match rest with
        | 'I' :: 'n' :: 'f' :: 'i' :: 'n' :: 'i' :: 't' :: 'y' :: rest2 =>
          some (.num (-1), rest2)
        | _ => (parseNumber (c :: rest)).map (fun p => (.num p.1, p.2))
      else if c.isDigit then (parseNumber (c :: rest)).map (fun p => (.num p.1, p.2))
      else none

/-- Parse array elements after the opening bracket (whitespace already skipped).
A closing bracket is accepted directly only for the empty array, matching the
rejection of trailing commas. -/
def parseElems (fuel : Nat) (cs : List Char) (acc : List Json) :
    Option (Json × List Char) :=
  match fuel with
  | 0 => none
  | fuel + 1 =>
    match cs with
    | ']' :: rest => if acc.isEmpty then some (.arr acc.reverse, rest) else none
    | _ =>
      match parseValue fuel cs with
      | none => none
      | some (v, rest) =>
        match skipWs rest with
        | ',' :: rest2 => parseElems fuel (skipWs rest2) (v :: acc)
        | ']' :: rest2 => some (.arr (v :: acc).reverse, rest2)
        | _ => none

/-- Parse object members after the opening brace (whitespace already skipped).
A closing brace is accepted directly only for the empty object, matching the
rejection of trailing commas. -/
def parseMembers (fuel : Nat) (cs : List Char) (acc : List (String × Json)) :
    Option (Json × List Char) :=
  match fuel with
  | 0 => none
  | fuel + 1 =>
    match cs with
    | '\x7d' :: rest => if acc.isEmpty then some (.obj acc, rest) else none
    | '"' :: rest =>
      match parseStringBody rest with
      | none => none
      | some (k, rest2) =>
        match skipWs rest2 with
        | ':' :: rest3 =>
          match parseValue fuel (skipWs rest3) with
          | none => none
          | some (v, rest4) =>
            match skipWs rest4 with
            | ',' :: rest5 => parseMembers fuel (skipWs rest5) (dictInsert acc (String.mk k) v)
            | '\x7d' :: rest5 => some (.obj (dictInsert acc (String.mk k) v), rest5)
            | _ => none
        | _ => none
    | _ => none

end

/-- Model of the json.loads call: parse one JSON document and require that only
whitespace remains.  The fuel bound is generous: every two units of fuel consume
at least one input character. -/
def parseJson (s : String) : Option Json :=
  match parseValue (2 * s.length + 2) s.data with
  | some (v, rest) => if skipWs rest = [] then some v else none
  | none => none

/-- The Python exceptions the decode loops can raise; none of them is caught by
the json.JSONDecodeError handler, and none is a requests.RequestException, so
each one aborts the loop and propagates out of the send function. -/
inductive PyErr where
  | typeError
  | attributeError
  | keyError
  | indexError
deriving Repr, DecidableEq

/-- Python truthiness of a decoded JSON value, as used by the if tests. -/
def Json.truthy : Json → Bool
  | .null => false
  | .bool b => b
  | .num n => n != 0
  | .str s => s != ""
  | .arr l => !l.isEmpty
  | .obj fields => !fields.isEmpty

/-- Python equality of a decoded JSON value with a string literal: only a str
can compare equal to a str; every other decoded type compares unequal. -/
def pyEqStr (v : Json) (s : String) : Bool :=
  match v with
  | .str t => t == s
  | _ => false

/-- Does the needle occur as a contiguous run inside the haystack. -/
def subOccurs (needle : List Char) : List Char → Bool
  | [] => needle.isEmpty
  | c :: rest => needle.isPrefixOf (c :: rest) || subOccurs needle rest

/-- The Python membership test, k in v, on a decoded JSON value: key lookup for
a dict, substring test for a str, element equality for a list, and a TypeError
for null, bool and numbers, which are not containers. -/
def pyContains (k : String) : Json → Except PyErr Bool
  | .obj fields => .ok (fields.lookup k).isSome
  | .str s => .ok (subOccurs k.data s.data)
  | .arr l => .ok (l.any (fun e => pyEqStr e k))
  | _ => .error .typeError

/-- Python subscription v[k] with a string key: only a dict accepts it (a str or
list wants an integer index, the rest are not subscriptable at all). -/
def pyGetItemStr (v : Json) (k : String) : Except PyErr Json :=
  match v with
  | .obj fields =>
    match fields.lookup k with
    | some x => .ok x
    | none => .error .keyError
  | _ => .error .typeError

/-- Python len(v): defined for str, list and dict, a TypeError otherwise. -/
def pyLen : Json → Except PyErr Nat
  | .str s => .ok s.length
  | .arr l => .ok l.length
  | .obj fields => .ok fields.length
  | _ => .error .typeError

/-- Python subscription v[i] with a nonnegative integer index: an element for a
list, a one-character str for a str, a KeyError for a dict whose keys are all
strings, and a TypeError otherwise. -/
def pyIndex (v : Json) (i : Nat) : Except PyErr Json :=
  match v with
  | .arr l =>
    match l[i]? with
    | some x => .ok x
    | none => .error .indexError
  | .str s =>
    match s.data[i]? with
    | some c => .ok (.str (String.mk [c]))
    | none => .error .indexError
  | .obj _ => .error .keyError
  | _ => .error .typeError

/-- Python v.get(k, d): only a dict has the get method; on every other decoded
type the attribute access raises AttributeError. -/
def pyGet (v : Json) (k : String) (d : Json) : Except PyErr Json :=
  match v with
  | .obj fields => .ok ((fields.lookup k).getD d)
  | _ => .error .attributeError

/-- Python str.startswith over code points. -/
def pyStartsWith (s pre : String) : Bool := pre.data.isPrefixOf s.data

/-- Python slice s[n:] over code points. -/
def pySliceFrom (s : String) (n : Nat) : String := String.mk (s.data.drop n)

/-- The OpenAI text extraction of send_to_openai, lines 170 to 173: the guarded
reads of choices, choices[0], its delta and the delta content, returning the
fragment list (empty or one fragment) that the line appends to accumulated_text,
or the first uncaught exception of the chain. -/
def openaiFrag (data : Json) : Except PyErr (List Json) :=
  match pyContains "choices" data with
  | .error e => .error e
  | .ok false => .ok []
  | .ok true =>
    match pyGetItemStr data "choices" with
    | .error e => .error e
    | .ok choices =>
      match pyLen choices with
      | .error e => .error e
      | .ok n =>
        if 0 < n then
          match pyIndex choices 0 with
          | .error e => .error e
          | .ok first =>
            match pyGet first "delta" (Json.obj []) with
            | .error e => .error e
            | .ok delta =>
              match pyContains "content" delta with
              | .error e => .error e
              | .ok false => .ok []
              | .ok true =>
                match pyGetItemStr delta "content" with
                | .error e => .error e
                | .ok content => if content.truthy then .ok [content] else .ok []
        else .ok []

/-- The Anthropic text extraction of send_to_anthropic, lines 229 to 234: the
type test, the delta and its type test, and the truthy text append, returning
the fragment list that the line appends to accumulated_text, or the first
uncaught exception of the chain. -/
def anthropicFrag (data : Json) : Except PyErr (List Json) :=
  match pyGet data "type" Json.null with
  | .error e => .error e
  | .ok ty =>
    if pyEqStr ty "content_block_delta" then
      match pyGet data "delta" (Json.obj []) with
      | .error e => .error e
      | .ok delta =>
        match pyGet delta "type" Json.null with
        | .error e => .error e
        | .ok dty =>
          if pyEqStr dty "text_delta" then
            match pyGet delta "text" (Json.str "") with
            | .error e => .error e
            | .ok text => if text.truthy then .ok [text] else .ok []
          else .ok []
    else .ok []

/-- Outcome of the loop body for one line: continue to the next line, break out
of the loop, or abort with an uncaught exception. -/
inductive StepRes where
  | cont (acc : List Json)
  | brk (acc : List Json)
  | err (e : PyErr) (acc : List Json)
deriving Repr

/-- The accumulated_text fragment list right after the loop body ran. -/
def StepRes.resAcc : StepRes → List Json
  | .cont a => a
  | .brk a => a
  | .err _ a => a

/-- One iteration of the send_to_openai SSE loop, lines 156 to 175: skip a falsy
line, skip a line without the data prefix, break on the [DONE] payload, silently
skip a payload that json.loads rejects, and otherwise run the extraction. -/
def openaiProcessLine (acc : List Json) (line : String) : StepRes :=
  if line.data = [] then .cont acc
  else if pyStartsWith line "data: " then
    if pySliceFrom line 6 = "[DONE]" then .brk acc
    else
      match parseJson (pySliceFrom line 6) with
      | some data =>
        match openaiFrag data with
        | .ok frag => .cont (acc ++ frag)
        | .error e => .err e acc
      | none => .cont acc
  else .cont acc

/-- One iteration of the send_to_anthropic SSE loop, lines 218 to 236: skip a
falsy line, skip a line without the data prefix, silently skip a payload that
json.loads rejects, and otherwise run the extraction.  There is no sentinel
test. -/
def anthropicProcessLine (acc : List Json) (line : String) : StepRes :=
  if line.data = [] then .cont acc
  else if pyStartsWith line "data: " then
    match parseJson (pySliceFrom line 6) with
    | some data =>
      match anthropicFrag data with
      | .ok frag => .cont (acc ++ frag)
      | .error e => .err e acc
    | none => .cont acc
  else .cont acc

/-- How a decode loop ended: the line iterator was exhausted, a break statement
ran, or an uncaught exception aborted it.  Each carries the accumulated_text
fragment list at that moment. -/
inductive LoopRes where
  | eof (acc : List Json)
  | broke (acc : List Json)
  | exn (e : PyErr) (acc : List Json)
deriving Repr

/-- Run a decode loop body over the response lines. -/
def runLines (step : List Json → String → StepRes) (acc : List Json) :
    List String → LoopRes
  | [] => .eof acc
  | l :: ls =>
    match step acc l with
    | .cont a => runLines step a ls
    | .brk a => .broke a
    | .err e a => .exn e a

/-- The accumulated_text fragment list at the moment the loop ended. -/
def LoopRes.finalAcc : LoopRes → List Json
  | .eof acc => acc
  | .broke acc => acc
  | .exn _ acc => acc

/-- The text of the fragments, as joined by the final print: each str fragment
contributes its characters.  The claims only evaluate it on lists whose entries
are all str. -/
def joinedText : List Json → String
  | [] => ""
  | j :: rest =>
    (match j with
     | .str s => s
     | _ => "") ++ joinedText rest

/-- The accumulated text when the loop ended. -/
def finalText (r : LoopRes) : String := joinedText r.finalAcc

/-- The observable face of one HTTP exchange: the response status and body, the
SSE lines the iterator delivers, and whether the transport fails with a read
error after the delivered lines (a read error interrupts the iteration, so the
lines past it are simply the ones never delivered). -/
structure HttpResp where
  status : Nat
  body : String
  lines : List String
  readError : Bool
deriving Repr

/-- Input to one send call: either requests.post itself raises a
RequestException, or a response arrives. -/
inductive Transport where
  | requestFailed
  | response (r : HttpResp)
deriving Repr

/-- The requests library response.ok property: it asks raise_for_status, which
raises exactly for 400 <= status_code < 600, so ok is false exactly for the 4xx
and 5xx client and server error ranges and true for every other status a server
can send. -/
def respOk (status : Nat) : Bool := decide (status < 400) || decide (600 ≤ status)

/-- Whether the final print can join the fragments: the join method of the
empty str, applied at lines 185 and 246, requires every element of
accumulated_text to be a str and raises a TypeError otherwise. -/
def joinable (acc : List Json) : Bool :=
  acc.all fun j =>
    match j with
    | .str _ => true
    | _ => false

/-- How a send function ends: the not-ok branch that prints the status and body
and calls sys.exit(1); a RequestException caught by the handler that prints it
and calls sys.exit(1); an uncaught exception, from the loop or from the final
join of the fragments, that propagates and makes the interpreter exit with
status 1; or a normal return. -/
inductive SendResult where
  | httpError (status : Nat) (body : String)
  | transportError
  | uncaught (e : PyErr) (acc : List Json)
  | completed (acc : List Json)
deriving Repr

/-- The exit status of the process after the send call: 0 only on a normal
return (main then falls off its end); each other case exits with 1. -/
def exitCode : SendResult → Nat
  | .completed _ => 0
  | _ => 1

/-- The accumulated_text fragment list ever built during the send call; the
httpError and transportError paths never append a fragment. -/
def SendResult.resultAcc : SendResult → List Json
  | .httpError _ _ => []
  | .transportError => []
  | .uncaught _ acc => acc
  | .completed acc => acc

/-- Run one send function given its loop body: the control flow of
send_to_openai and send_to_anthropic around their SSE loops (lines 145 to 190
and 207 to 251): check response.ok, run the loop over the delivered lines,
surface a read error only when the iterator was driven to its end, and then
model the accumulated-text print after the loop: when a truthy non-str fragment
was accumulated, the join raises a TypeError inside the try block whose only
handler is for RequestException, so it propagates uncaught. -/
def runSend (step : List Json → String → StepRes) (t : Transport) : SendResult :=
  match t with
  | .requestFailed => .transportError
  | .response r =>
    if respOk r.status then
      match runLines step [] r.lines with
      | .eof acc =>
        if r.readError then .transportError
        else if joinable acc then .completed acc
        else .uncaught .typeError acc
      | .broke acc => if joinable acc then .completed acc else .uncaught .typeError acc
      | .exn e acc => .uncaught e acc
    else .httpError r.status r.body

/-- send_to_openai restricted to its observable outcome. -/
def sendToOpenai (t : Transport) : SendResult := runSend openaiProcessLine t

/-- send_to_anthropic restricted to its observable outcome. -/
def sendToAnthropic (t : Transport) : SendResult := runSend anthropicProcessLine t

/-- Reading of the spec sentence for the OpenAI accumulation: the value of
choices[0].delta.content when the whole path is present and the content is a
non-empty string; none when the field is absent or empty. -/
def openaiDeltaContent (e : Json) : Option String :=
  match e with
  | .obj fields =>
    match fields.lookup "choices" with
    | some (.arr (c0 :: _)) =>
      match c0 with
      | .obj cf =>
        match cf.lookup "delta" with
        | some (.obj df) =>
          match df.lookup "content" with
          | some (.str s) => if s = "" then none else some s
          | _ => none
        | _ => none
      | _ => none
    | _ => none
  | _ => none

/-- Reading of the spec sentence for the Anthropic accumulation: the delta.text
value (defaulting to the empty string) of exactly the events whose type is
content_block_delta and whose delta.type is text_delta; none for every other
event. -/
def anthropicDeltaText (e : Json) : Option String :=
  match e with
  | .obj fields =>
    match fields.lookup "type" with
    | some (.str t) =>
      if t = "content_block_delta" then
        match fields.lookup "delta" with
        | some (.obj df) =>
          match df.lookup "type" with
          | some (.str dt) =>
            if dt = "text_delta" then
              some
                (match df.lookup "text" with
                 | some (.str s) => s
                 | _ => "")
            else none
          | _ => none
        | _ => none
      else none
    | _ => none
  | _ => none

/-- An event of the OpenAI stream shape of the spec data model: an object whose
choices value, when present, is an array; when that array is non-empty its head
is an object; the delta of that head, when present, is an object; and the
content of that delta, when present, is a string. -/
def isOpenaiEvent : Json → Bool
  | .obj fields =>
    match fields.lookup "choices" with
    | none => true
    | some (.arr []) => true
    | some (.arr (c0 :: _)) =>
      match c0 with
      | .obj cf =>
        match cf.lookup "delta" with
        | none => true
        | some (.obj df) =>
          match df.lookup "content" with
          | none => true
          | some (.str _) => true
          | some _ => false
        | some _ => false
      | _ => false
    | some _ => false
  | _ => false

/-- An event of the Anthropic stream shape of the spec data model: an object;
when its type is content_block_delta, its delta, when present, is an object,
and when that delta has type text_delta its text, when present, is a string. -/
def isAnthropicEvent : Json → Bool
  | .obj fields =>
    match fields.lookup "type" with
    | some (.str t) =>
      if t = "content_block_delta" then
        match fields.lookup "delta" with
        | none => true
        | some (.obj df) =>
          match df.lookup "type" with
          | some (.str dt) =>
            if dt = "text_delta" then
              match df.lookup "text" with
              | none => true
              | some (.str _) => true
              | some _ => false
            else true
          | _ => true
        | some _ => false
      else true
    | _ => true
  | _ => false

/-- The fragment list one spec-side OpenAI event contributes. -/
def openaiSpecFrag (e : Json) : List Json :=
  match openaiDeltaContent e with
  | some s => [Json.str s]
  | none => []

/-- The fragment list one spec-side Anthropic event contributes: an empty text
is tested for truthiness and never appended. -/
def anthropicSpecFrag (e : Json) : List Json :=
  match anthropicDeltaText e with
  | some s => if s = "" then [] else [Json.str s]
  | none => []

/-- The fragment lists a list of spec-side events contributes, in order. -/
def specFrags (frag : Json → List Json) : List Json → List Json
  | [] => []
  | e :: es => frag e ++ specFrags frag es

/-- Ordered concatenation of the selected text of each event, the right side of
the spec sentences about accumulated text. -/
def concatContents (f : Json → Option String) : List Json → String
  | [] => ""
  | e :: es => ((f e).getD "") ++ concatContents f es

theorem string_data_append (s t : String) : (s ++ t).data = s.data ++ t.data := by
  cases s
  cases t
  rfl

theorem dataLine_data (p : String) :
    ("data: " ++ p).data = 'd' :: 'a' :: 't' :: 'a' :: ':' :: ' ' :: p.data := by
  rw [string_data_append]
  rfl

theorem dataLine_ne_nil (p : String) : ("data: " ++ p).data ≠ [] := by
  rw [dataLine_data]
  simp

theorem pyStartsWith_dataLine (p : String) : pyStartsWith ("data: " ++ p) "data: " = true := by
  show ("data: ".data.isPrefixOf ("data: " ++ p).data) = true
  rw [dataLine_data, show "data: ".data = ['d', 'a', 't', 'a', ':', ' '] from rfl]
  simp [List.isPrefixOf]

theorem pySliceFrom_dataLine (p : String) : pySliceFrom ("data: " ++ p) 6 = p := by
  show String.mk (("data: " ++ p).data.drop 6) = p
  rw [dataLine_data]
  rfl

/-- What the OpenAI loop body does on a data line that is not the sentinel is
decided by the parse of the payload and the extraction. -/
theorem openaiProcessLine_dataLine (acc : List Json) (p : String) (hne : p ≠ "[DONE]") :
    openaiProcessLine acc ("data: " ++ p) =
      match parseJson p with
      | some data =>
        match openaiFrag data with
        | .ok frag => StepRes.cont (acc ++ frag)
        | .error e => StepRes.err e acc
      | none => StepRes.cont acc := by
  unfold openaiProcessLine
  rw [if_neg (dataLine_ne_nil p), if_pos (pyStartsWith_dataLine p)]
  simp only [pySliceFrom_dataLine]
  rw [if_neg hne]

/-- What the Anthropic loop body does on a data line is decided by the parse of
the payload and the extraction. -/
theorem anthropicProcessLine_dataLine (acc : List Json) (p : String) :
    anthropicProcessLine acc ("data: " ++ p) =
      match parseJson p with
      | some data =>
        match anthropicFrag data with
        | .ok frag => StepRes.cont (acc ++ frag)
        | .error e => StepRes.err e acc
      | none => StepRes.cont acc := by
  unfold anthropicProcessLine
  rw [if_neg (dataLine_ne_nil p), if_pos (pyStartsWith_dataLine p)]
  simp only [pySliceFrom_dataLine]

/-- On an event of the OpenAI shape, the code extraction raises nothing and
appends exactly the fragment of the spec-side reading. -/
theorem openaiFrag_shaped (e : Json) (h : isOpenaiEvent e = true) :
    openaiFrag e = .ok (openaiSpecFrag e) := by
  cases e with
  | null => simp [isOpenaiEvent] at h
  | bool b => simp [isOpenaiEvent] at h
  | num n => simp [isOpenaiEvent] at h
  | str s => simp [isOpenaiEvent] at h
  | arr l => simp [isOpenaiEvent] at h
  | obj fields =>
    simp only [isOpenaiEvent] at h
    cases hc : fields.lookup "choices" with
    | none =>
      simp [openaiFrag, openaiSpecFrag, openaiDeltaContent, pyContains, hc]
    | some v =>
      simp only [hc] at h
      cases v with
      | null => simp at h
      | bool b => simp at h
      | num n => simp at h
      | str s => simp at h
      | obj o => simp at h
      | arr l =>
        cases l with
        | nil =>
          simp [openaiFrag, openaiSpecFrag, openaiDeltaContent, pyContains, pyGetItemStr,
            pyLen, hc]
        | cons c0 cs =>
          cases c0 with
          | null => simp at h
          | bool b => simp at h
          | num n => simp at h
          | str s => simp at h
          | arr l2 => simp at h
          | obj cf =>
            simp only [] at h
            cases hd : cf.lookup "delta" with
            | none =>
              simp [openaiFrag, openaiSpecFrag, openaiDeltaContent, pyContains,
                pyGetItemStr, pyLen, pyIndex, pyGet, hc, hd]
            | some d =>
              simp only [hd] at h
              cases d with
              | null => simp at h
              | bool b => simp at h
              | num n => simp at h
              | str s => simp at h
              | arr l2 => simp at h
              | obj df =>
                cases he : df.lookup "content" with
                | none =>
                  simp [openaiFrag, openaiSpecFrag, openaiDeltaContent, pyContains,
                    pyGetItemStr, pyLen, pyIndex, pyGet, hc, hd, he]
                | some c =>
                  simp only [he] at h
                  cases c with
                  | null => simp at h
                  | bool b => simp at h
                  | num n => simp at h
                  | arr l2 => simp at h
                  | obj o => simp at h
                  | str s =>
                    by_cases hs : s = ""
                    · subst hs
                      simp [openaiFrag, openaiSpecFrag, openaiDeltaContent, pyContains,
                        pyGetItemStr, pyLen, pyIndex, pyGet, Json.truthy, hc, hd, he]
                    · simp [openaiFrag, openaiSpecFrag, openaiDeltaContent, pyContains,
                        pyGetItemStr, pyLen, pyIndex, pyGet, Json.truthy, hc, hd, he, hs]

/-- On an event of the Anthropic shape, the code extraction raises nothing and
appends exactly the fragment of the spec-side reading. -/
theorem anthropicFrag_shaped (e : Json) (h : isAnthropicEvent e = true) :
    anthropicFrag e = .ok (anthropicSpecFrag e) := by
  cases e with
  | null => simp [isAnthropicEvent] at h
  | bool b => simp [isAnthropicEvent] at h
  | num n => simp [isAnthropicEvent] at h
  | str s => simp [isAnthropicEvent] at h
  | arr l => simp [isAnthropicEvent] at h
  | obj fields =>
    simp only [isAnthropicEvent] at h
    cases ht : fields.lookup "type" with
    | none =>
      simp [anthropicFrag, anthropicSpecFrag, anthropicDeltaText, pyGet, pyEqStr, ht]
    | some tv =>
      simp only [ht] at h
      cases tv with
      | null => simp [anthropicFrag, anthropicSpecFrag, anthropicDeltaText, pyGet, pyEqStr, ht]
      | bool b => simp [anthropicFrag, anthropicSpecFrag, anthropicDeltaText, pyGet, pyEqStr, ht]
      | num n => simp [anthropicFrag, anthropicSpecFrag, anthropicDeltaText, pyGet, pyEqStr, ht]
      | arr l => simp [anthropicFrag, anthropicSpecFrag, anthropicDeltaText, pyGet, pyEqStr, ht]
      | obj o => simp [anthropicFrag, anthropicSpecFrag, anthropicDeltaText, pyGet, pyEqStr, ht]
      | str t =>
        by_cases htv : t = "content_block_delta"
        · subst htv
          simp only [if_pos rfl] at h
          cases hd : fields.lookup "delta" with
          | none =>
            simp [anthropicFrag, anthropicSpecFrag, anthropicDeltaText, pyGet, pyEqStr, ht, hd]
          | some d =>
            simp only [hd] at h
            cases d with
            | null => simp at h
            | bool b => simp at h
            | num n => simp at h
            | str s => simp at h
            | arr l2 => simp at h
            | obj df =>
              cases hdt : df.lookup "type" with
              | none =>
                simp [anthropicFrag, anthropicSpecFrag, anthropicDeltaText, pyGet, pyEqStr,
                  ht, hd, hdt]
              | some dtv =>
                simp only [hdt] at h
                cases dtv with
                | null =>
                  simp [anthropicFrag, anthropicSpecFrag, anthropicDeltaText, pyGet,
                    pyEqStr, ht, hd, hdt]
                | bool b =>
                  simp [anthropicFrag, anthropicSpecFrag, anthropicDeltaText, pyGet,
                    pyEqStr, ht, hd, hdt]
                | num n =>
                  simp [anthropicFrag, anthropicSpecFrag, anthropicDeltaText, pyGet,
                    pyEqStr, ht, hd, hdt]
                | arr l2 =>
                  simp [anthropicFrag, anthropicSpecFrag, anthropicDeltaText, pyGet,
                    pyEqStr, ht, hd, hdt]
                | obj o =>
                  simp [anthropicFrag, anthropicSpecFrag, anthropicDeltaText, pyGet,
                    pyEqStr, ht, hd, hdt]
                | str dt =>
                  by_cases hdtv : dt = "text_delta"
                  · subst hdtv
                    simp only [if_pos rfl] at h
                    cases hx : df.lookup "text" with
                    | none =>
                      simp [anthropicFrag, anthropicSpecFrag, anthropicDeltaText, pyGet,
                        pyEqStr, Json.truthy, ht, hd, hdt, hx]
                    | some x =>
                      simp only [hx] at h
                      cases x with
                      | null => simp at h
                      | bool b => simp at h
                      | num n => simp at h
                      | arr l2 => simp at h
                      | obj o => simp at h
                      | str s =>
                        by_cases hs : s = ""
                        · subst hs
                          simp [anthropicFrag, anthropicSpecFrag, anthropicDeltaText,
                            pyGet, pyEqStr, Json.truthy, ht, hd, hdt, hx]
                        · simp [anthropicFrag, anthropicSpecFrag, anthropicDeltaText,
                            pyGet, pyEqStr, Json.truthy, ht, hd, hdt, hx, hs]
                  · simp [anthropicFrag, anthropicSpecFrag, anthropicDeltaText, pyGet,
                      pyEqStr, ht, hd, hdt, hdtv]
        · simp [anthropicFrag, anthropicSpecFrag, anthropicDeltaText, pyGet, pyEqStr,
            ht, htv]

theorem runLines_cons (step : List Json → String → StepRes) (acc : List Json)
    (l : String) (ls : List String) :
    runLines step acc (l :: ls) =
      match step acc l with
      | .cont a => runLines step a ls
      | .brk a => .broke a
      | .err e a => .exn e a := rfl

/-- Running the OpenAI loop over shaped data lines closed by the sentinel breaks
at the sentinel with every spec-side fragment appended in order. -/
theorem runLines_openai_shaped (ps : List String) (es : List Json)
    (h : List.Forall₂ (fun p e => parseJson p = some e ∧ isOpenaiEvent e = true) ps es)
    (acc : List Json) :
    runLines openaiProcessLine acc (ps.map (fun p => "data: " ++ p) ++ ["data: [DONE]"]) =
      .broke (acc ++ specFrags openaiSpecFrag es) := by
  induction h generalizing acc with
  | nil =>
    simp only [List.map_nil, List.nil_append, specFrags, List.append_nil]
    rfl
  | @cons p e ps' es' hpe htail ih =>
    obtain ⟨hp, he⟩ := hpe
    have hne : p ≠ "[DONE]" := by
      intro hcon
      rw [hcon, show parseJson "[DONE]" = none from rfl] at hp
      exact Option.noConfusion hp
    simp only [List.map_cons, List.cons_append]
    rw [runLines_cons, openaiProcessLine_dataLine acc p hne, hp]
    simp only [openaiFrag_shaped e he]
    rw [ih (acc ++ openaiSpecFrag e)]
    simp [specFrags, List.append_assoc]

/-- Running the Anthropic loop over shaped data lines reaches the end of the
stream with every spec-side fragment appended in order. -/
theorem runLines_anthropic_shaped (ps : List String) (es : List Json)
    (h : List.Forall₂ (fun p e => parseJson p = some e ∧ isAnthropicEvent e = true) ps es)
    (acc : List Json) :
    runLines anthropicProcessLine acc (ps.map (fun p => "data: " ++ p)) =
      .eof (acc ++ specFrags anthropicSpecFrag es) := by
  induction h generalizing acc with
  | nil =>
    simp only [List.map_nil, specFrags, List.append_nil]
    rfl
  | @cons p e ps' es' hpe htail ih =>
    obtain ⟨hp, he⟩ := hpe
    simp only [List.map_cons]
    rw [runLines_cons, anthropicProcessLine_dataLine acc p, hp]
    simp only [anthropicFrag_shaped e he]
    rw [ih (acc ++ anthropicSpecFrag e)]
    simp [specFrags, List.append_assoc]

theorem joinedText_append (a b : List Json) :
    joinedText (a ++ b) = joinedText a ++ joinedText b := by
  induction a with
  | nil => simp [joinedText]
  | cons j rest ih => simp [joinedText, ih, String.append_assoc]

theorem joined_specFrags_openai (es : List Json) :
    joinedText (specFrags openaiSpecFrag es) = concatContents openaiDeltaContent es := by
  induction es with
  | nil => rfl
  | cons e es ih =>
    simp only [specFrags, concatContents, joinedText_append, ih]
    cases hde : openaiDeltaContent e with
    | none => simp [openaiSpecFrag, hde, joinedText]
    | some s => simp [openaiSpecFrag, hde, joinedText]

theorem joined_specFrags_anthropic (es : List Json) :
    joinedText (specFrags anthropicSpecFrag es) = concatContents anthropicDeltaText es := by
  induction es with
  | nil => rfl
  | cons e es ih =>
    simp only [specFrags, concatContents, joinedText_append, ih]
    cases hde : anthropicDeltaText e with
    | none => simp [anthropicSpecFrag, hde, joinedText]
    | some s =>
      by_cases hs : s = ""
      · subst hs
        simp [anthropicSpecFrag, hde, joinedText]
      · simp [anthropicSpecFrag, hde, hs, joinedText]

/-- C1: for every sequence of OpenAI-shape SSE lines ending in the sentinel line
data: [DONE], the accumulated text of the OpenAI decode loop equals the ordered
concatenation of every present and non-empty choices[0].delta.content field of
the events decoded before the sentinel. -/
theorem c1_openai_accumulation (ps : List String) (es : List Json)
    (h : List.Forall₂ (fun p e => parseJson p = some e ∧ isOpenaiEvent e = true) ps es) :
    finalText (runLines openaiProcessLine []
        (ps.map (fun p => "data: " ++ p) ++ ["data: [DONE]"])) =
      concatContents openaiDeltaContent es := by
  rw [runLines_openai_shaped ps es h []]
  simp only [finalText, LoopRes.finalAcc, List.nil_append]
  exact joined_specFrags_openai es

/-- C1 witness: the two-chunk stream of the claim accumulates "Hi there". -/
theorem c1_openai_accumulation_witness :
    finalText (runLines openaiProcessLine []
        ["data: \x7b\"choices\":[\x7b\"delta\":\x7b\"content\":\"Hi\"\x7d\x7d]\x7d",
         "data: \x7b\"choices\":[\x7b\"delta\":\x7b\"content\":\" there\"\x7d\x7d]\x7d",
         "data: [DONE]"]) = "Hi there" := by
  have h := c1_openai_accumulation
      ["\x7b\"choices\":[\x7b\"delta\":\x7b\"content\":\"Hi\"\x7d\x7d]\x7d",
       "\x7b\"choices\":[\x7b\"delta\":\x7b\"content\":\" there\"\x7d\x7d]\x7d"]
      [Json.obj [("choices",
          Json.arr [Json.obj [("delta", Json.obj [("content", Json.str "Hi")])]])],
       Json.obj [("choices",
          Json.arr [Json.obj [("delta", Json.obj [("content", Json.str " there")])]])]]
      (by refine List.Forall₂.cons ⟨?_, ?_⟩ (List.Forall₂.cons ⟨?_, ?_⟩ List.Forall₂.nil) <;> rfl)
  exact h.trans rfl

/-- C2: for every sequence of Anthropic-shape SSE lines terminated by stream
close, the accumulated text of the Anthropic decode loop equals the ordered
concatenation of the delta.text fields of exactly the events whose type is
content_block_delta and whose delta.type is text_delta. -/
theorem c2_anthropic_accumulation (ps : List String) (es : List Json)
    (h : List.Forall₂ (fun p e => parseJson p = some e ∧ isAnthropicEvent e = true) ps es) :
    finalText (runLines anthropicProcessLine [] (ps.map (fun p => "data: " ++ p))) =
      concatContents anthropicDeltaText es := by
  rw [runLines_anthropic_shaped ps es h []]
  simp only [finalText, LoopRes.finalAcc, List.nil_append]
  exact joined_specFrags_anthropic es

/-- C2 witness: the one-line stream of the claim accumulates "Hello". -/
theorem c2_anthropic_accumulation_witness :
    finalText (runLines anthropicProcessLine []
        ["data: \x7b\"type\":\"content_block_delta\",\"delta\":\x7b\"type\":\"text_delta\",\"text\":\"Hello\"\x7d\x7d"]) =
      "Hello" := by
  have h := c2_anthropic_accumulation
      ["\x7b\"type\":\"content_block_delta\",\"delta\":\x7b\"type\":\"text_delta\",\"text\":\"Hello\"\x7d\x7d"]
      [Json.obj [("type", Json.str "content_block_delta"),
        ("delta", Json.obj [("type", Json.str "text_delta"), ("text", Json.str "Hello")])]]
      (by refine List.Forall₂.cons ⟨?_, ?_⟩ List.Forall₂.nil <;> rfl)
  exact h.trans rfl

/-- A line the loop body always skips leaves the whole run as if the line were
absent, wherever it sits in the stream. -/
theorem runLines_skip (step : List Json → String → StepRes) (l : String)
    (hstep : ∀ acc, step acc l = .cont acc) (pre suf : List String) (acc : List Json) :
    runLines step acc (pre ++ l :: suf) = runLines step acc (pre ++ suf) := by
  induction pre generalizing acc with
  | nil =>
    simp only [List.nil_append]
    rw [runLines_cons, hstep acc]
  | cons q pre ih =>
    simp only [List.cons_append]
    rw [runLines_cons, runLines_cons]
    cases step acc q with
    | cont a => exact ih a
    | brk a => rfl
    | err e a => rfl

/-- A line the loop body always breaks on makes the run ignore every later
line. -/
theorem runLines_stop (step : List Json → String → StepRes) (l : String)
    (hstep : ∀ acc, step acc l = .brk acc) (pre suf : List String) (acc : List Json) :
    runLines step acc (pre ++ l :: suf) = runLines step acc (pre ++ [l]) := by
  induction pre generalizing acc with
  | nil =>
    simp only [List.nil_append]
    rw [runLines_cons, runLines_cons, hstep acc]
  | cons q pre ih =>
    simp only [List.cons_append]
    rw [runLines_cons, runLines_cons]
    cases step acc q with
    | cont a => exact ih a
    | brk a => rfl
    | err e a => rfl

/-- C3: a data line whose payload json.loads rejects (and which, in the OpenAI
loop, is not the sentinel) leaves the accumulated text unchanged, does not
abort the loop, and every later line is processed exactly as without it. -/
theorem c3_invalid_json_skipped (p : String) (hbad : parseJson p = none) :
    (∀ acc, anthropicProcessLine acc ("data: " ++ p) = .cont acc) ∧
    (∀ acc pre suf, runLines anthropicProcessLine acc (pre ++ ("data: " ++ p) :: suf) =
        runLines anthropicProcessLine acc (pre ++ suf)) ∧
    (p ≠ "[DONE]" →
      (∀ acc, openaiProcessLine acc ("data: " ++ p) = .cont acc) ∧
      (∀ acc pre suf, runLines openaiProcessLine acc (pre ++ ("data: " ++ p) :: suf) =
          runLines openaiProcessLine acc (pre ++ suf))) := by
  have ha : ∀ acc, anthropicProcessLine acc ("data: " ++ p) = .cont acc := by
    intro acc
    rw [anthropicProcessLine_dataLine acc p, hbad]
  refine ⟨ha, fun acc pre suf => runLines_skip _ _ ha pre suf acc, fun hne => ?_⟩
  have ho : ∀ acc, openaiProcessLine acc ("data: " ++ p) = .cont acc := by
    intro acc
    rw [openaiProcessLine_dataLine acc p hne, hbad]
  exact ⟨ho, fun acc pre suf => runLines_skip _ _ ho pre suf acc⟩

/-- C3 witness: a broken fragment line is skipped by both loops and removing it
changes nothing downstream. -/
theorem c3_invalid_json_skipped_witness :
    anthropicProcessLine [] "data: \x7bbroken" = .cont [] ∧
    openaiProcessLine [] "data: \x7bbroken" = .cont [] ∧
    runLines openaiProcessLine []
        ["data: \x7bbroken",
         "data: \x7b\"choices\":[\x7b\"delta\":\x7b\"content\":\"Hi\"\x7d\x7d]\x7d",
         "data: [DONE]"] =
      runLines openaiProcessLine []
        ["data: \x7b\"choices\":[\x7b\"delta\":\x7b\"content\":\"Hi\"\x7d\x7d]\x7d",
         "data: [DONE]"] := by
  have h := c3_invalid_json_skipped "\x7bbroken" rfl
  have ho := h.2.2 (by decide)
  exact ⟨h.1 [], ho.1 [],
    ho.2 [] []
      ["data: \x7b\"choices\":[\x7b\"delta\":\x7b\"content\":\"Hi\"\x7d\x7d]\x7d",
       "data: [DONE]"]⟩

/-- C5: in the OpenAI loop a line whose payload is the [DONE] literal breaks
the loop successfully right there; no later line is processed or contributes to
the accumulated text. -/
theorem c5_openai_done_sentinel :
    (∀ acc, openaiProcessLine acc "data: [DONE]" = .brk acc) ∧
    (∀ acc suf, runLines openaiProcessLine acc ("data: [DONE]" :: suf) = .broke acc) ∧
    (∀ acc pre suf, runLines openaiProcessLine acc (pre ++ "data: [DONE]" :: suf) =
        runLines openaiProcessLine acc (pre ++ ["data: [DONE]"])) := by
  have hstep : ∀ acc, openaiProcessLine acc "data: [DONE]" = .brk acc := fun _ => rfl
  exact ⟨hstep, fun _ _ => rfl,
    fun acc pre suf => runLines_stop _ _ hstep pre suf acc⟩

/-- C6: in the Anthropic loop the line data: [DONE] is no sentinel: its payload
fails to parse, the line is skipped, the accumulated text is unchanged, and
decoding continues as if the line were absent. -/
theorem c6_anthropic_done_not_sentinel :
    (∀ acc, anthropicProcessLine acc "data: [DONE]" = .cont acc) ∧
    (∀ acc pre suf, runLines anthropicProcessLine acc (pre ++ "data: [DONE]" :: suf) =
        runLines anthropicProcessLine acc (pre ++ suf)) := by
  have hstep : ∀ acc, anthropicProcessLine acc "data: [DONE]" = .cont acc := fun _ => rfl
  exact ⟨hstep, fun acc pre suf => runLines_skip _ _ hstep pre suf acc⟩

/-- C7: a blank line, and a non-blank line without the data prefix, are ignored
by both loops: the accumulated text is unchanged and the run proceeds as if the
line were absent. -/
theorem c7_non_data_lines_ignored (l : String)
    (h : l = "" ∨ pyStartsWith l "data: " = false) :
    (∀ acc, openaiProcessLine acc l = .cont acc) ∧
    (∀ acc, anthropicProcessLine acc l = .cont acc) ∧
    (∀ acc pre suf, runLines openaiProcessLine acc (pre ++ l :: suf) =
        runLines openaiProcessLine acc (pre ++ suf)) ∧
    (∀ acc pre suf, runLines anthropicProcessLine acc (pre ++ l :: suf) =
        runLines anthropicProcessLine acc (pre ++ suf)) := by
  have ho : ∀ acc, openaiProcessLine acc l = .cont acc := by
    intro acc
    unfold openaiProcessLine
    rcases h with h | h
    · subst h
      rfl
    · by_cases hd : l.data = []
      · rw [if_pos hd]
      · rw [if_neg hd, if_neg (by simp [h])]
  have ha : ∀ acc, anthropicProcessLine acc l = .cont acc := by
    intro acc
    unfold anthropicProcessLine
    rcases h with h | h
    · subst h
      rfl
    · by_cases hd : l.data = []
      · rw [if_pos hd]
      · rw [if_neg hd, if_neg (by simp [h])]
  exact ⟨ho, ha, fun acc pre suf => runLines_skip _ _ ho pre suf acc,
    fun acc pre suf => runLines_skip _ _ ha pre suf acc⟩

/-- C7 witness: a blank line and an event line are both ignored. -/
theorem c7_non_data_lines_ignored_witness :
    openaiProcessLine [] "event: ping" = .cont [] ∧
    anthropicProcessLine [] "" = .cont [] ∧
    runLines openaiProcessLine [] ["event: ping", "data: [DONE]"] =
      runLines openaiProcessLine [] ["data: [DONE]"] := by
  have h1 := c7_non_data_lines_ignored "event: ping" (Or.inr rfl)
  have h2 := c7_non_data_lines_ignored "" (Or.inl rfl)
  exact ⟨h1.1 [], h2.2.1 [], h1.2.2.1 [] [] ["data: [DONE]"]⟩

/-- C9: a payload that json.loads accepts but that is not an object defeats the
leniency: the extraction raises an exception the JSON-decode handler does not
catch (a TypeError from the membership test of the OpenAI loop on null or on a
number, an AttributeError from the get call of the Anthropic loop on null), so
the loop aborts there instead of skipping the line. -/
theorem c9_valid_non_object_aborts :
    (∀ acc, openaiProcessLine acc "data: null" = .err .typeError acc) ∧
    (∀ acc, openaiProcessLine acc "data: 5" = .err .typeError acc) ∧
    (∀ acc, anthropicProcessLine acc "data: null" = .err .attributeError acc) ∧
    (∀ acc rest, runLines openaiProcessLine acc ("data: null" :: rest) =
        .exn .typeError acc) ∧
    (∀ acc rest, runLines openaiProcessLine acc ("data: 5" :: rest) =
        .exn .typeError acc) ∧
    (∀ acc rest, runLines anthropicProcessLine acc ("data: null" :: rest) =
        .exn .attributeError acc) :=
  ⟨fun _ => rfl, fun _ => rfl, fun _ => rfl,
   fun _ _ => rfl, fun _ _ => rfl, fun _ _ => rfl⟩

/-- The OpenAI extraction yields an error, no fragment, or one fragment. -/
theorem openaiFrag_small (data : Json) :
    (∃ e, openaiFrag data = .error e) ∨ openaiFrag data = .ok [] ∨
      ∃ x, openaiFrag data = .ok [x] := by
  unfold openaiFrag
  repeat' split
  all_goals simp

/-- The Anthropic extraction yields an error, no fragment, or one fragment. -/
theorem anthropicFrag_small (data : Json) :
    (∃ e, anthropicFrag data = .error e) ∨ anthropicFrag data = .ok [] ∨
      ∃ x, anthropicFrag data = .ok [x] := by
  unfold anthropicFrag
  repeat' split
  all_goals simp

/-- One OpenAI loop iteration leaves the fragment list unchanged or appends
exactly one fragment at the end. -/
theorem openaiProcessLine_appendOnly (acc : List Json) (l : String) :
    (openaiProcessLine acc l).resAcc = acc ∨
      ∃ x, (openaiProcessLine acc l).resAcc = acc ++ [x] := by
  unfold openaiProcessLine
  repeat' split
  all_goals try exact Or.inl rfl
  rename_i d hparse hscrut frag hfrag
  rcases openaiFrag_small d with ⟨e2, he2⟩ | hnil | ⟨x, hx⟩
  · rw [hfrag] at he2
    exact absurd he2 (by simp)
  · rw [hfrag] at hnil
    simp only [Except.ok.injEq] at hnil
    subst hnil
    exact Or.inl (by simp [StepRes.resAcc])
  · rw [hfrag] at hx
    simp only [Except.ok.injEq] at hx
    subst hx
    exact Or.inr ⟨x, by simp [StepRes.resAcc]⟩

/-- One Anthropic loop iteration leaves the fragment list unchanged or appends
exactly one fragment at the end. -/
theorem anthropicProcessLine_appendOnly (acc : List Json) (l : String) :
    (anthropicProcessLine acc l).resAcc = acc ∨
      ∃ x, (anthropicProcessLine acc l).resAcc = acc ++ [x] := by
  unfold anthropicProcessLine
  repeat' split
  all_goals try exact Or.inl rfl
  rename_i d hparse hscrut frag hfrag
  rcases anthropicFrag_small d with ⟨e2, he2⟩ | hnil | ⟨x, hx⟩
  · rw [hfrag] at he2
    exact absurd he2 (by simp)
  · rw [hfrag] at hnil
    simp only [Except.ok.injEq] at hnil
    subst hnil
    exact Or.inl (by simp [StepRes.resAcc])
  · rw [hfrag] at hx
    simp only [Except.ok.injEq] at hx
    subst hx
    exact Or.inr ⟨x, by simp [StepRes.resAcc]⟩

/-- A loop whose body only ever appends ends with the starting fragments as a
list prefix of the final ones. -/
theorem runLines_acc_extends (step : List Json → String → StepRes)
    (hstep : ∀ acc l, (step acc l).resAcc = acc ∨ ∃ x, (step acc l).resAcc = acc ++ [x])
    (ls : List String) (acc : List Json) :
    ∃ ext, (runLines step acc ls).finalAcc = acc ++ ext := by
  induction ls generalizing acc with
  | nil => exact ⟨[], by simp [runLines, LoopRes.finalAcc]⟩
  | cons l ls ih =>
    rw [runLines_cons]
    have hs := hstep acc l
    cases hc : step acc l with
    | cont a =>
      rw [hc] at hs
      simp only [StepRes.resAcc] at hs
      rcases hs with hs | ⟨x, hs⟩
      · rw [hs]
        exact ih acc
      · rw [hs]
        obtain ⟨ext, hext⟩ := ih (acc ++ [x])
        exact ⟨[x] ++ ext, by rw [hext, List.append_assoc]⟩
    | brk a =>
      rw [hc] at hs
      simp only [StepRes.resAcc] at hs
      rcases hs with hs | ⟨x, hs⟩
      · rw [hs]
        exact ⟨[], by simp [LoopRes.finalAcc]⟩
      · rw [hs]
        exact ⟨[x], rfl⟩
    | err e a =>
      rw [hc] at hs
      simp only [StepRes.resAcc] at hs
      rcases hs with hs | ⟨x, hs⟩
      · rw [hs]
        exact ⟨[], by simp [LoopRes.finalAcc]⟩
      · rw [hs]
        exact ⟨[x], rfl⟩

/-- A loop whose body only ever appends has, for every stream split, the
fragments after the first part as a list prefix of the fragments after the
whole stream. -/
theorem runLines_prefix_extends (step : List Json → String → StepRes)
    (hstep : ∀ acc l, (step acc l).resAcc = acc ∨ ∃ x, (step acc l).resAcc = acc ++ [x])
    (pre suf : List String) (acc : List Json) :
    ∃ ext, (runLines step acc (pre ++ suf)).finalAcc =
      (runLines step acc pre).finalAcc ++ ext := by
  induction pre generalizing acc with
  | nil =>
    simpa [runLines, LoopRes.finalAcc] using runLines_acc_extends step hstep suf acc
  | cons l pre ih =>
    simp only [List.cons_append]
    rw [runLines_cons, runLines_cons]
    cases step acc l with
    | cont a => exact ih a
    | brk a => exact ⟨[], by simp [LoopRes.finalAcc]⟩
    | err e a => exact ⟨[], by simp [LoopRes.finalAcc]⟩

/-- C10: the accumulated text is append-only in both loops: each line leaves
the fragment list unchanged or appends one fragment at the end, and for every
prefix of the stream the accumulated text at that point is a string prefix of
the accumulated text after the whole stream. -/
theorem c10_append_only :
    (∀ acc l, (openaiProcessLine acc l).resAcc = acc ∨
        ∃ x, (openaiProcessLine acc l).resAcc = acc ++ [x]) ∧
    (∀ acc l, (anthropicProcessLine acc l).resAcc = acc ∨
        ∃ x, (anthropicProcessLine acc l).resAcc = acc ++ [x]) ∧
    (∀ acc pre suf, ∃ t, finalText (runLines openaiProcessLine acc (pre ++ suf)) =
        finalText (runLines openaiProcessLine acc pre) ++ t) ∧
    (∀ acc pre suf, ∃ t, finalText (runLines anthropicProcessLine acc (pre ++ suf)) =
        finalText (runLines anthropicProcessLine acc pre) ++ t) := by
  refine ⟨openaiProcessLine_appendOnly, anthropicProcessLine_appendOnly, ?_, ?_⟩
  · intro acc pre suf
    obtain ⟨ext, hext⟩ :=
      runLines_prefix_extends openaiProcessLine openaiProcessLine_appendOnly pre suf acc
    exact ⟨joinedText ext, by simp only [finalText]; rw [hext, joinedText_append]⟩
  · intro acc pre suf
    obtain ⟨ext, hext⟩ :=
      runLines_prefix_extends anthropicProcessLine anthropicProcessLine_appendOnly pre suf acc
    exact ⟨joinedText ext, by simp only [finalText]; rw [hext, joinedText_append]⟩

/-- C4 counterexample: a 304 response has a non-2xx status, but response.ok is
status_code < 400, so the code streams it instead of aborting: both send
functions complete normally with exit status 0 and a non-empty accumulated
text. -/
theorem c4_counterexample :
    sendToOpenai (.response ⟨304, "",
        ["data: \x7b\"choices\":[\x7b\"delta\":\x7b\"content\":\"Hi\"\x7d\x7d]\x7d",
         "data: [DONE]"], false⟩) =
      .completed [Json.str "Hi"] ∧
    sendToAnthropic (.response ⟨304, "",
        ["data: \x7b\"type\":\"content_block_delta\",\"delta\":\x7b\"type\":\"text_delta\",\"text\":\"Hello\"\x7d\x7d"],
        false⟩) =
      .completed [Json.str "Hello"] ∧
    exitCode (SendResult.completed [Json.str "Hi"]) = 0 := ⟨rfl, rfl, rfl⟩

/-- C4 amended: for every response whose status the requests library treats as
not ok, that is 400 <= status < 600 (exactly the 4xx and 5xx error ranges),
both send functions report the status and body and exit nonzero before reading
any stream line (the outcome does not depend on the lines or the read flag),
and the accumulated text is empty. -/
theorem c4_http_error_aborts (st : Nat) (body : String) (lines lines2 : List String)
    (re re2 : Bool) (h : 400 ≤ st) (h6 : st < 600) :
    sendToOpenai (.response ⟨st, body, lines, re⟩) = .httpError st body ∧
    sendToAnthropic (.response ⟨st, body, lines, re⟩) = .httpError st body ∧
    exitCode (sendToOpenai (.response ⟨st, body, lines, re⟩)) ≠ 0 ∧
    (sendToOpenai (.response ⟨st, body, lines, re⟩)).resultAcc = [] ∧
    (sendToAnthropic (.response ⟨st, body, lines, re⟩)).resultAcc = [] ∧
    sendToOpenai (.response ⟨st, body, lines, re⟩) =
      sendToOpenai (.response ⟨st, body, lines2, re2⟩) ∧
    sendToAnthropic (.response ⟨st, body, lines, re⟩) =
      sendToAnthropic (.response ⟨st, body, lines2, re2⟩) := by
  have hok : respOk st = false := by
    simp only [respOk, Bool.or_eq_false_iff, decide_eq_false_iff_not, not_lt, not_le]
    omega
  refine ⟨?_, ?_, ?_, ?_, ?_, ?_, ?_⟩ <;>
    simp [sendToOpenai, sendToAnthropic, runSend, hok, exitCode, SendResult.resultAcc]

/-- C4 witness: the 401 response of the claim with body of an error object. -/
theorem c4_http_error_aborts_witness :
    sendToOpenai (.response ⟨401, "\x7b\"error\":\"invalid key\"\x7d",
        ["data: \x7b\"choices\":[\x7b\"delta\":\x7b\"content\":\"Hi\"\x7d\x7d]\x7d"], false⟩) =
      .httpError 401 "\x7b\"error\":\"invalid key\"\x7d" ∧
    (sendToOpenai (.response ⟨401, "\x7b\"error\":\"invalid key\"\x7d",
        ["data: \x7b\"choices\":[\x7b\"delta\":\x7b\"content\":\"Hi\"\x7d\x7d]\x7d"], false⟩)).resultAcc = [] ∧
    exitCode (sendToOpenai (.response ⟨401, "\x7b\"error\":\"invalid key\"\x7d",
        ["data: \x7b\"choices\":[\x7b\"delta\":\x7b\"content\":\"Hi\"\x7d\x7d]\x7d"], false⟩)) ≠ 0 := by
  obtain ⟨h1, h2, h3, h4, h5, h6, h7⟩ :=
    c4_http_error_aborts 401 "\x7b\"error\":\"invalid key\"\x7d"
      ["data: \x7b\"choices\":[\x7b\"delta\":\x7b\"content\":\"Hi\"\x7d\x7d]\x7d"] [] false false
      (by decide) (by decide)
  exact ⟨h1, h4, h3⟩

end LlmDemo
